import Mathlib

/-!
# Verification of the maplecrm domain-service layer

Shallow embedding of the business logic in `src/server/storage.ts`,
`src/server/routes.ts` and the validation schemas of `src/shared/schema.ts`.

Conventions of the embedding:
* JavaScript timestamps are integers (milliseconds since the epoch).
* A JavaScript `Date` value is `Option Int`: `some t` is a valid date with
  timestamp `t`, `none` is an Invalid Date (`new Date` of an unparsable
  string).  `new Date(string)` itself is runtime behaviour, so functions that
  parse date strings take a parameter `pd : String → Option Int`.
* Database rows are Lean structures; each table is a list of rows inside a
  `DB` state record, and every storage operation is a pure function on `DB`.
* JavaScript truthiness of the guarded fields is modelled field by field
  (empty string, `0`, `null` and `undefined` are falsy; any `Date` object is
  truthy).
-/

namespace MapleCRM

/-- A JavaScript `Date` value: `some t` holds the epoch-millisecond
timestamp, `none` is an Invalid Date. -/
abbrev JSDate := Option Int

/-- `parseInt(s)` (base 10): skip leading spaces, optional sign, then the
longest prefix of decimal digits; no digits gives `NaN`, modelled as
`none`. -/
def jsParseInt (s : String) : Option Int :=
  let cs := s.toList.dropWhile (fun c => c = ' ')
  let core : List Char → Option Nat := fun l =>
    let ds := l.takeWhile Char.isDigit
    if ds.isEmpty then none
    else some (ds.foldl (fun a c => a * 10 + (c.toNat - 48)) 0)
  match cs with
  | '-' :: rest => (core rest).map (fun n => -(n : Int))
  | '+' :: rest => (core rest).map (fun n => (n : Int))
  | _ => (core cs).map (fun n => (n : Int))

/-- JavaScript `x || d` for a possibly absent string (`undefined`/`null`
and the empty string are falsy). -/
def jsOrStr (x : Option String) (d : String) : String :=
  match x with
  | some s => if s = "" then d else s
  | none => d

/-- Truthiness of a possibly absent string. -/
def truthyStr (x : Option String) : Bool :=
  match x with
  | some s => s ≠ ""
  | none => false

/-- Truthiness of a possibly absent JavaScript number (0 is falsy). -/
def truthyNum (x : Option Int) : Bool :=
  match x with
  | some n => n ≠ 0
  | none => false

/-- Insertion of one element into a list sorted by `le`. -/
def insertSorted {α : Type} (le : α → α → Bool) (a : α) : List α → List α
  | [] => [a]
  | b :: bs => if le a b then a :: b :: bs else b :: insertSorted le a bs

/-- Insertion sort; models the `orderBy` clauses of the storage queries. -/
def sortBy {α : Type} (le : α → α → Bool) : List α → List α
  | [] => []
  | a :: as => insertSorted le a (sortBy le as)

/-! ## Rows (tables of `src/shared/schema.ts`) -/

/-- A row of `team_members`. -/
structure TeamMember where
  id : Int
  name : String
  email : String
  role : String
deriving DecidableEq, Repr

/-- A row of `clients`. -/
structure Client where
  id : Int
  name : String
  status : String
  lastContacted : Option Int
  createdAt : Int
  updatedAt : Int
deriving DecidableEq, Repr

/-- A row of `projects`.  The column `type` keeps its source name. -/
structure Project where
  id : Int
  name : String
  phoneNumber : String
  poc : String
  type : String
  affiliatePartner : Option String
  category : Option String
  lastContacted : Option Int
  status : String
  activeStage : Option String
  hasInvoice : String
  assignedToId : Int
  clientId : Option Int
  createdAt : Int
  updatedAt : Int
deriving DecidableEq, Repr

/-- A row of `documents`. -/
structure Document where
  id : Int
  name : String
  filePath : String
  mimeType : Option String
  size : Option Int
  clientId : Int
  createdAt : Int
deriving DecidableEq, Repr

/-- The database state: the four tables plus the serial counters used for
ids handed out by inserts. -/
structure DB where
  teamMembers : List TeamMember
  clients : List Client
  projects : List Project
  documents : List Document
  nextClientId : Int
  nextProjectId : Int
deriving DecidableEq, Repr

/-- Lexicographic comparison of character lists by code point, modelling
the database's binary collation for `orderBy asc(name)`. -/
def charListLe : List Char → List Char → Bool
  | [], _ => true
  | _ :: _, [] => false
  | a :: as, b :: bs =>
      if a.toNat < b.toNat then true
      else if b.toNat < a.toNat then false
      else charListLe as bs

/-- String ordering used for name sorting. -/
def strLe (a b : String) : Bool := charListLe a.toList b.toList

/-- `getTeamMembers` (storage.ts 17–21): all team members ordered
ascending by name. -/
def getTeamMembers (db : DB) : List TeamMember :=
  sortBy (fun a b => strLe a.name b.name) db.teamMembers

/-- `db.query.clients.findFirst({where: eq(clients.id, id)})`. -/
def findClient (db : DB) (id : Int) : Option Client :=
  db.clients.find? (fun c => c.id == id)

/-- `db.query.projects.findFirst({where: eq(projects.id, id)})`. -/
def findProject (db : DB) (id : Int) : Option Project :=
  db.projects.find? (fun p => p.id == id)

/-- `getProjectsByClientId` (storage.ts 128–136): projects whose
`clientId` equals the given id, ordered descending by `updatedAt`. -/
def getProjectsByClientId (db : DB) (clientId : Int) : List Project :=
  sortBy (fun a b => decide (b.updatedAt ≤ a.updatedAt))
    (db.projects.filter (fun p => p.clientId == some clientId))

/-- `getDocumentsByClientId` (storage.ts 518–523): documents of the
client, ordered descending by `createdAt`. -/
def getDocumentsByClientId (db : DB) (clientId : Int) : List Document :=
  sortBy (fun a b => decide (b.createdAt ≤ a.createdAt))
    (db.documents.filter (fun d => d.clientId == clientId))

/-! ## Client propagation helpers (storage.ts 495–515) -/

/-- The conditional overwrite of one client row performed by
`updateClientLastContacted`: overwrite `lastContacted` (and bump
`updatedAt`) only when the client has no current value or the candidate is
strictly more recent (storage.ts 503–508). -/
def updClientLastContactedRow (lastContacted now : Int) (c : Client) : Client :=
  match c.lastContacted with
  | none => { c with lastContacted := some lastContacted, updatedAt := now }
  | some t =>
      if t < lastContacted then
        { c with lastContacted := some lastContacted, updatedAt := now }
      else c

/-- `updateClientLastContacted` (storage.ts 495–509): read the client; if
absent do nothing; otherwise conditionally overwrite its row. -/
def updateClientLastContacted (db : DB) (clientId lastContacted now : Int) : DB :=
  match findClient db clientId with
  | none => db
  | some _ =>
      { db with clients := db.clients.map (fun c =>
          if c.id == clientId then updClientLastContactedRow lastContacted now c else c) }

/-- `updateClientStatus` (storage.ts 511–515): unconditionally overwrite
the status of the matching client rows and bump their `updatedAt`. -/
def updateClientStatus (db : DB) (clientId : Int) (status : String) (now : Int) : DB :=
  { db with clients := db.clients.map (fun c =>
      if c.id == clientId then { c with status := status, updatedAt := now } else c) }

/-! ## `deleteClient` (storage.ts 467–492)

The physical file system is a list of paths; `unlinkFails` is an oracle
saying which `fs.unlinkSync` calls throw.  The code wraps each unlink in
`try/catch` and only logs on failure, so the record deletions below never
depend on the oracle. -/

/-- `deleteClient`: best-effort removal of each referenced file, then
deletion of the client's document records, its projects, and the client
row itself. -/
def deleteClient (db : DB) (fs : List String) (unlinkFails : String → Bool)
    (id : Int) : DB × List String :=
  let clientDocs := db.documents.filter (fun d => d.clientId == id)
  let fsAfter := clientDocs.foldl (fun acc d =>
    if acc.contains d.filePath ∧ ¬ unlinkFails d.filePath then acc.erase d.filePath
    else acc) fs
  ({ db with
      documents := db.documents.filter (fun d => ¬ d.clientId == id)
      projects := db.projects.filter (fun p => ¬ p.clientId == some id)
      clients := db.clients.filter (fun c => ¬ c.id == id) },
   fsAfter)

/-! ## `getProjects` (storage.ts 31–100) -/

/-- The in-memory filter options; each field is `none` when the query
parameter is absent (`undefined`). -/
structure ProjectFilterOptions where
  status : Option String := none
  assignedToId : Option String := none
  type : Option String := none
  lastContacted : Option String := none
deriving DecidableEq, Repr

/-- The four bucket boundaries appearing in the `lastContacted` switch,
each computed by the runtime from the wall clock at query time
(`format(today,'yyyy-MM-dd')` reparsed, `startOfWeek`, `startOfMonth`,
`startOfQuarter`). -/
structure BucketStarts where
  todayStart : Int
  weekStart : Int
  monthStart : Int
  quarterStart : Int
deriving DecidableEq, Repr

/-- The `if (filters.x && filters.x !== 'all')` guard: the filter is
applied only for a non-empty value other than `"all"`. -/
def filterApplies (x : Option String) : Bool :=
  truthyStr x && x != some "all"

/-- The date-bucket lower bound selected by the `switch`; an unrecognized
bucket name selects no filter at all (no `case` matches). -/
def bucketStart (s : String) (bs : BucketStarts) : Option Int :=
  match s with
  | "today" => some bs.todayStart
  | "week" => some bs.weekStart
  | "month" => some bs.monthStart
  | "quarter" => some bs.quarterStart
  | _ => none

/-- The status filter stage (storage.ts 49–51). -/
def statusStage (f : Option String) (l : List Project) : List Project :=
  if filterApplies f then l.filter (fun p => p.status == f.getD "") else l

/-- The assignee filter stage (storage.ts 53–56): the query value is
parsed with `parseInt` and compared with `===` (`NaN` matches nothing). -/
def assignedStage (f : Option String) (l : List Project) : List Project :=
  if filterApplies f then
    l.filter (fun p =>
      match jsParseInt (f.getD "") with
      | some k => p.assignedToId == k
      | none => false)
  else l

/-- The type filter stage (storage.ts 58–60). -/
def typeStage (f : Option String) (l : List Project) : List Project :=
  if filterApplies f then l.filter (fun p => p.type == f.getD "") else l

/-- The date-bucket filter stage (storage.ts 62–92): keep the projects
whose non-null `lastContacted` is at or after the selected bucket start;
an unrecognized bucket name matches no `case` and filters nothing. -/
def lastContactedStage (f : Option String) (bs : BucketStarts)
    (l : List Project) : List Project :=
  if filterApplies f then
    match bucketStart (f.getD "") bs with
    | some st =>
        l.filter (fun p =>
          match p.lastContacted with
          | some t => decide (st ≤ t)
          | none => false)
    | none => l
  else l

/-- `getProjects`: all projects ordered descending by `updatedAt`, then
the four in-memory filters applied in sequence. -/
def getProjects (db : DB) (f : ProjectFilterOptions) (bs : BucketStarts) :
    List Project :=
  lastContactedStage f.lastContacted bs
    (typeStage f.type
      (assignedStage f.assignedToId
        (statusStage f.status
          (sortBy (fun a b => decide (b.updatedAt ≤ a.updatedAt)) db.projects))))

/-! ## Pending follow-ups (storage.ts 597–610) -/

/-- Milliseconds in 7 days: the distance of `subDays(new Date(), 7)` from
`new Date()`. -/
def sevenDaysMs : Int := 604800000

/-- The pending-follow-ups count of `getProjectStats`: projects with
status `active` whose `lastContacted` is `NULL` or strictly before
`now − 7 days`. -/
def pendingFollowups (db : DB) (now : Int) : Nat :=
  (db.projects.filter (fun p =>
    p.status == "active" &&
      match p.lastContacted with
      | none => true
      | some t => decide (t < now - sevenDaysMs))).length

/-! ## Request payload fields

Inbound payloads are untyped; each field models exactly the JavaScript
value shapes the handlers branch on. -/

/-- A `lastContacted` payload field: absent, `null`, a string, or a
(valid) `Date` object produced by the route's own normalization. -/
inductive DateIn
  | undef
  | nul
  | str (s : String)
  | date (t : Int)
deriving DecidableEq, Repr

/-- A `hasInvoice` payload field. -/
inductive InvIn
  | undef
  | nul
  | boolean (b : Bool)
  | num (n : Int)
  | str (s : String)
deriving DecidableEq, Repr

/-- An `assignedToId` payload field. -/
inductive AssignIn
  | undef
  | nul
  | str (s : String)
  | num (n : Int)
deriving DecidableEq, Repr

/-- JavaScript `toLowerCase` on the ASCII range (the inputs the invoice
coercion compares are plain ASCII keywords). -/
def jsToLower (s : String) : String :=
  ⟨s.toList.map (fun c =>
    if 65 ≤ c.toNat ∧ c.toNat ≤ 90 then Char.ofNat (c.toNat + 32) else c)⟩

/-- The `hasInvoice` coercion shared by `createProject` (storage.ts
168–190), `updateProject` (264–284) and both route handlers: booleans and
numbers map to `"yes"`/`"no"`, strings equal to `"true"`/`"false"`
case-insensitively map to `"yes"`/`"no"`, any other string passes through,
and `undefined`/`null` map to `"no"`. -/
def normalizeInvoice : InvIn → String
  | .undef => "no"
  | .nul => "no"
  | .boolean b => if b then "yes" else "no"
  | .num n => if 0 < n then "yes" else "no"
  | .str s =>
      if jsToLower s = "true" then "yes"
      else if jsToLower s = "false" then "no"
      else s

/-- A `createProject` payload (storage.ts 138). -/
structure CreateIn where
  name : Option String := none
  phoneNumber : Option String := none
  poc : Option String := none
  type : Option String := none
  status : Option String := none
  affiliatePartner : Option String := none
  category : Option String := none
  activeStage : Option String := none
  lastContacted : DateIn := .undef
  hasInvoice : InvIn := .undef
  assignedToId : AssignIn := .undef
  clientId : Option Int := none
deriving DecidableEq, Repr

/-- The `insertData` record assembled by `createProject` (storage.ts
141–194) before validation.  `assignedToId = none` is `NaN` (a failed
`parseInt`); `lastContacted = some none` is an Invalid Date. -/
structure InsertData where
  name : String
  phoneNumber : String
  poc : String
  type : String
  status : String
  assignedToId : Option Int
  affiliatePartner : Option String
  category : Option String
  activeStage : Option String
  lastContacted : Option JSDate
  hasInvoice : String
  createdAt : Int
  updatedAt : Int
deriving DecidableEq, Repr

/-- storage.ts 141–194: defaulting, optional fields, the date guard
(`if (data.lastContacted)` — a non-empty string or any `Date` object is
truthy) and the invoice coercion. -/
def buildInsertData (pd : String → Option Int) (now : Int) (d : CreateIn) :
    InsertData :=
  { name := jsOrStr d.name ""
    phoneNumber := jsOrStr d.phoneNumber ""
    poc := jsOrStr d.poc ""
    type := jsOrStr d.type "direct"
    status := jsOrStr d.status "active"
    assignedToId :=
      match d.assignedToId with
      | .str s => jsParseInt s
      | .num n => some (if n = 0 then 1 else n)
      | .undef => some 1
      | .nul => some 1
    affiliatePartner := if truthyStr d.affiliatePartner then d.affiliatePartner else none
    category := if truthyStr d.category then d.category else none
    activeStage := if truthyStr d.activeStage then d.activeStage else none
    lastContacted :=
      match d.lastContacted with
      | .str s => if s = "" then none else some (pd s)
      | .date t => some (some t)
      | .undef => none
      | .nul => none
    hasInvoice := normalizeInvoice d.hasInvoice
    createdAt := now
    updatedAt := now }

/-- `projectInsertSchema.parse` (schema.ts 95–102 over the drizzle base
schema): names of length ≥ 2, non-empty `type` and `status`, `hasInvoice`
constrained to the enum `["yes","no"]`, a number (not `NaN`) for
`assignedToId` and a valid (or absent) date for `lastContacted`.  On
success the parsed record carries the tightened types. -/
structure ValidatedInsert where
  name : String
  phoneNumber : String
  poc : String
  type : String
  status : String
  assignedToId : Int
  affiliatePartner : Option String
  category : Option String
  activeStage : Option String
  lastContacted : Option Int
  hasInvoice : String
  createdAt : Int
  updatedAt : Int
  clientId : Option Int := none
deriving DecidableEq, Repr

/-- The validation outcome of `projectInsertSchema.parse`. -/
def parseProjectInsert (i : InsertData) : Option ValidatedInsert :=
  match i.assignedToId with
  | none => none
  | some aid =>
    let lc? : Option (Option Int) :=
      match i.lastContacted with
      | none => some none
      | some none => none
      | some (some t) => some (some t)
    match lc? with
    | none => none
    | some lc =>
        if i.name.length < 2 then none
        else if i.type = "" then none
        else if i.status = "" then none
        else if i.hasInvoice ≠ "yes" ∧ i.hasInvoice ≠ "no" then none
        else some
          { name := i.name, phoneNumber := i.phoneNumber, poc := i.poc
            type := i.type, status := i.status, assignedToId := aid
            affiliatePartner := i.affiliatePartner, category := i.category
            activeStage := i.activeStage, lastContacted := lc
            hasInvoice := i.hasInvoice, createdAt := i.createdAt
            updatedAt := i.updatedAt }

/-- `createProject` (storage.ts 138–227): build `insertData`, validate,
auto-create a client for a direct project with a truthy name and no
truthy `clientId` (202–212), insert the project, then propagate a
non-null `lastContacted` to the associated client (218–220). -/
def createProject (pd : String → Option Int) (now : Int) (db : DB)
    (d : CreateIn) : Except String (DB × Project) :=
  let ins := buildInsertData pd now d
  match parseProjectInsert ins with
  | none => .error "ValidationError"
  | some v =>
    let autoClient : Bool :=
      d.type == some "direct" && !truthyNum d.clientId && truthyStr d.name
    let step1 : DB × ValidatedInsert :=
      if autoClient then
        let newClient : Client :=
          { id := db.nextClientId
            name := jsOrStr d.name ""
            status := jsOrStr d.status "active"
            lastContacted := v.lastContacted
            createdAt := now
            updatedAt := now }
        ({ db with clients := db.clients ++ [newClient]
                   nextClientId := db.nextClientId + 1 },
         { v with clientId := some db.nextClientId })
      else (db, v)
    let db1 := step1.1
    let v1 := step1.2
    let p : Project :=
      { id := db1.nextProjectId
        name := v1.name, phoneNumber := v1.phoneNumber, poc := v1.poc
        type := v1.type, affiliatePartner := v1.affiliatePartner
        category := v1.category, lastContacted := v1.lastContacted
        status := v1.status, activeStage := v1.activeStage
        hasInvoice := v1.hasInvoice, assignedToId := v1.assignedToId
        clientId := v1.clientId, createdAt := v1.createdAt
        updatedAt := v1.updatedAt }
    let db2 := { db1 with projects := db1.projects ++ [p]
                          nextProjectId := db1.nextProjectId + 1 }
    let db3 :=
      match p.clientId, p.lastContacted with
      | some cid, some t =>
          if cid ≠ 0 then updateClientLastContacted db2 cid t now else db2
      | _, _ => db2
    .ok (db3, p)

/-! ## `updateProject` (storage.ts 229–324) -/

/-- A computed per-field update: leave the column untouched, set it to
`NULL`, or set it to a value. -/
inductive UpdVal (α : Type)
  | keep
  | setNull
  | set (a : α)
deriving DecidableEq, Repr

/-- The `updateData.lastContacted` computation of `updateProject`
(storage.ts 254–262): `undefined` leaves the column untouched, `null`
clears it, a string goes through `new Date`, a `Date` object is used
as-is. -/
def buildUpdateLastContacted (pd : String → Option Int) :
    DateIn → UpdVal JSDate
  | .undef => .keep
  | .nul => .setNull
  | .str s => .set (pd s)
  | .date t => .set (some t)

/-- A `updateProject` payload: `none`/`.undef` fields are absent from the
patch body and leave the column untouched (storage.ts 244–291). -/
structure UpdateIn where
  name : Option String := none
  phoneNumber : Option String := none
  poc : Option String := none
  type : Option String := none
  affiliatePartner : Option String := none
  category : Option String := none
  status : Option String := none
  activeStage : Option String := none
  lastContacted : DateIn := .undef
  hasInvoice : InvIn := .undef
  assignedToId : AssignIn := .undef
deriving DecidableEq, Repr

/-- The `updateData.assignedToId` computation (storage.ts 287–291);
`none` is `NaN` (or a `null` that the not-null column cannot hold). -/
def buildUpdateAssigned (cur : Project) : AssignIn → Option Int
  | .undef => some cur.assignedToId
  | .nul => none
  | .str s => jsParseInt s
  | .num n => some n

/-- The `lastContacted` column value resulting from an update (the
`.set none` case is unreachable in `updateProject`, which errors out on
an Invalid Date before persisting). -/
def applyLastContactedUpd (cur : Project) : UpdVal JSDate → Option Int
  | .keep => cur.lastContacted
  | .setNull => none
  | .set (some t) => some t
  | .set none => none

/-- The patched project row persisted by `updateProject` (storage.ts
241–302): fields present in the payload overwrite the current row,
`updatedAt` is refreshed, `id`, `clientId` and `createdAt` are
untouched. -/
def applyProjectPatch (cur : Project) (d : UpdateIn) (na : Int)
    (newLast : Option Int) (now : Int) : Project :=
  { cur with
    name := d.name.getD cur.name
    phoneNumber := d.phoneNumber.getD cur.phoneNumber
    poc := d.poc.getD cur.poc
    type := d.type.getD cur.type
    affiliatePartner :=
      match d.affiliatePartner with
      | none => cur.affiliatePartner
      | some s => some s
    category :=
      match d.category with
      | none => cur.category
      | some s => some s
    status := d.status.getD cur.status
    activeStage :=
      match d.activeStage with
      | none => cur.activeStage
      | some s => some s
    lastContacted := newLast
    hasInvoice :=
      match d.hasInvoice with
      | .undef => cur.hasInvoice
      | v => normalizeInvoice v
    assignedToId := na
    updatedAt := now }

/-- `updateProject`: load the current row (error when absent), assemble
`updateData` from the fields present in the patch, persist, then run the
two client propagations (storage.ts 304–317).  There is no schema parse
on update; a value the column type cannot hold (an Invalid Date, a `NaN`
or `null` assignee) makes the persistence layer itself throw, modelled as
an error result. -/
def updateProject (pd : String → Option Int) (now : Int) (db : DB)
    (id : Int) (d : UpdateIn) : Except String (DB × Project) :=
  match findProject db id with
  | none => .error ("Project with ID " ++ toString id ++ " not found")
  | some cur =>
    match buildUpdateAssigned cur d.assignedToId with
    | none => .error "DriverError: invalid assignedToId"
    | some na =>
      match buildUpdateLastContacted pd d.lastContacted with
      | .set none => .error "RangeError: Invalid time value"
      | lcUpd =>
        let updated : Project :=
          applyProjectPatch cur d na (applyLastContactedUpd cur lcUpd) now
        let db1 := { db with projects := db.projects.map (fun p =>
            if p.id == id then updated else p) }
        let db2 :=
          match updated.clientId, updated.lastContacted with
          | some cid, some t =>
              if cid != 0 && (match cur.lastContacted with
                              | none => true
                              | some u => u != t) then
                updateClientLastContacted db1 cid t now
              else db1
          | _, _ => db1
        let db3 :=
          match updated.clientId with
          | some cid =>
              if cid != 0 && updated.status != cur.status then
                updateClientStatus db2 cid updated.status now
              else db2
          | none => db2
        .ok (db3, updated)

/-! ## Route-level date preprocessing (routes.ts 104–121 and 155–175)

Both the POST and the PATCH handler replace a parsable `lastContacted`
string by the `Date` it denotes and an unparsable one by `null` — but
only when the field is truthy, so the empty string is passed through
untouched. -/

/-- The shared `if (data.lastContacted) { ... }` block of both project
route handlers. -/
def routeProcessDate (pd : String → Option Int) : DateIn → DateIn
  | .str s =>
      if s = "" then .str s
      else
        match pd s with
        | some t => .date t
        | none => .nul
  | x => x

/-- POST `/api/projects`: preprocess the date and invoice fields, then
call `storage.createProject`. -/
def routeCreateProject (pd : String → Option Int) (now : Int) (db : DB)
    (d : CreateIn) : Except String (DB × Project) :=
  let d' := { d with
    lastContacted := routeProcessDate pd d.lastContacted
    hasInvoice :=
      match d.hasInvoice with
      | .undef => .undef
      | v => .str (normalizeInvoice v) }
  createProject pd now db d'

/-- PATCH `/api/projects/:id`: preprocess the date and invoice fields,
then call `storage.updateProject`. -/
def routeUpdateProject (pd : String → Option Int) (now : Int) (db : DB)
    (id : Int) (d : UpdateIn) : Except String (DB × Project) :=
  let d' := { d with
    lastContacted := routeProcessDate pd d.lastContacted
    hasInvoice :=
      match d.hasInvoice with
      | .undef => .undef
      | v => .str (normalizeInvoice v) }
  updateProject pd now db id d'

/-! ## Concrete fixtures used to instantiate the theorems -/

/-- A date parser knowing one ISO date; every other string (including the
empty string) is unparsable and yields an Invalid Date. -/
def pdJan : String → Option Int :=
  fun s => if s = "2024-01-05" then some 1704412800000 else none

/-- An empty database. -/
def emptyDB : DB :=
  { teamMembers := [], clients := [], projects := [], documents := []
    nextClientId := 1, nextProjectId := 1 }

/-- A project row template. -/
def projTemplate : Project :=
  { id := 1, name := "P", phoneNumber := "", poc := "", type := "direct"
    affiliatePartner := none, category := none, lastContacted := some 50
    status := "active", activeStage := none, hasInvoice := "no"
    assignedToId := 1, clientId := some 5, createdAt := 0, updatedAt := 0 }

/-- A database with one client (id 5) and one project (id 1) linked to it. -/
def dbOneLinked : DB :=
  { teamMembers := [], clients := [⟨5, "C", "pending", some 50, 0, 0⟩]
    projects := [projTemplate], documents := []
    nextClientId := 6, nextProjectId := 2 }

/-! ## C8 — pending follow-ups -/

/-- Specification-side predicate, following the spec's words: a project
pends a follow-up when its status is `active` and its last-contacted is
either null or more than 7 days before `now` (`now − t > 7 days`). -/
def pendingFollowupSpec (now : Int) (p : Project) : Bool :=
  p.status == "active" &&
    match p.lastContacted with
    | none => true
    | some t => decide (sevenDaysMs < now - t)

/-- C8: `projectStats()` counts as pending follow-ups exactly the projects
with status `active` whose `lastContacted` is null or strictly more than
7 days before now; a project last contacted 7 days and 1 second before
now is counted, one last contacted 6 days and 23 hours before now is
not. -/
theorem pendingFollowups_spec (db : DB) (now : Int) :
    pendingFollowups db now =
      (db.projects.filter (pendingFollowupSpec now)).length
    ∧ pendingFollowups
        { emptyDB with
          projects := [{ projTemplate with
            lastContacted := some (now - 604801000) }] } now = 1
    ∧ pendingFollowups
        { emptyDB with
          projects := [{ projTemplate with
            lastContacted := some (now - 601200000) }] } now = 0 := by
  refine ⟨?_, ?_, ?_⟩
  · unfold pendingFollowups pendingFollowupSpec
    congr 1
    apply List.filter_congr
    intro p _
    cases h : p.lastContacted with
    | none => simp [h]
    | some t =>
        simp only [h]
        rcases hs : (p.status == "active") with _ | _
        · simp
        · simp only [Bool.true_and]
          rw [decide_eq_decide]
          omega
  · simp [pendingFollowups, emptyDB, projTemplate, List.filter, sevenDaysMs]
  · simp [pendingFollowups, emptyDB, projTemplate, List.filter, sevenDaysMs]

/-! ## C3 — cascading client delete -/

/-- C3: after `deleteClient(id)` the documents and projects referencing
the client and the client row itself are gone — querying documents and
projects by that client id returns empty sets for any prior number of
rows — and the database outcome does not depend on which physical file
deletions fail (the `unlinkFails` oracle). -/
theorem deleteClient_cascades (db : DB) (fs : List String)
    (f1 f2 : String → Bool) (id : Int) :
    getDocumentsByClientId (deleteClient db fs f1 id).1 id = []
    ∧ getProjectsByClientId (deleteClient db fs f1 id).1 id = []
    ∧ findClient (deleteClient db fs f1 id).1 id = none
    ∧ (deleteClient db fs f1 id).1 = (deleteClient db fs f2 id).1 := by
  refine ⟨?_, ?_, ?_, rfl⟩
  · simp only [deleteClient, getDocumentsByClientId]
    rw [List.filter_filter]
    rw [show List.filter _ db.documents = ([] : List Document) from ?_]
    · rfl
    · rw [List.filter_eq_nil_iff]
      intro d _
      by_cases h : d.clientId = id <;> simp [h]
  · simp only [deleteClient, getProjectsByClientId]
    rw [List.filter_filter]
    rw [show List.filter _ db.projects = ([] : List Project) from ?_]
    · rfl
    · rw [List.filter_eq_nil_iff]
      intro p _
      by_cases h : p.clientId = some id <;> simp [h]
  · simp only [deleteClient, findClient]
    rw [List.find?_eq_none]
    intro c hc
    rw [List.mem_filter] at hc
    by_cases h : c.id = id
    · simp [h] at hc
    · simp [h]

/-! ## C6 — invalid `lastContacted` strings at the API boundary -/

/-- C6: the spec requires that a `lastContacted` string that does not
parse into a valid date always normalizes to null, and both route
handlers implement this — except for the empty string, whose falsiness
makes the handlers' `if (data.lastContacted)` guard skip the
normalization; `updateProject` then builds `new Date("")`, an Invalid
Date, which cannot be persisted, so a PATCH carrying
`lastContacted: ""` fails instead of succeeding with null.  The theorem
evaluates the pipeline at this failing input (under `pdJan`, for which
the empty string is unparsable) and, for contrast, at a non-empty
unparsable string, which is handled per the spec. -/
theorem patch_empty_string_date_bug :
    routeProcessDate pdJan (.str "") = .str ""
    ∧ buildUpdateLastContacted pdJan (.str "") = .set none
    ∧ routeUpdateProject pdJan 7 dbOneLinked 1 { lastContacted := .str "" }
        = .error "RangeError: Invalid time value"
    ∧ routeProcessDate pdJan (.str "not-a-date") = .nul
    ∧ (routeUpdateProject pdJan 7 dbOneLinked 1
        { lastContacted := .str "not-a-date" }).map (fun x => x.2.lastContacted)
        = .ok none := by
  refine ⟨rfl, rfl, rfl, rfl, rfl⟩

/-! ## C1 — monotonic last-contacted propagation -/

/-- Running maximum of an optional previous value and a new date. -/
def omax (o : Option Int) (d : Int) : Option Int :=
  some (match o with | none => d | some t => max t d)

theorem lastContacted_updRow (d n : Int) (c : Client) :
    (updClientLastContactedRow d n c).lastContacted = omax c.lastContacted d := by
  unfold updClientLastContactedRow omax
  cases h : c.lastContacted with
  | none => rfl
  | some t =>
      simp only [h]
      by_cases hlt : t < d
      · simp [hlt, max_eq_right (le_of_lt hlt)]
      · simp [hlt, max_eq_left (not_lt.1 hlt), h]

theorem foldl_updRow_lastContacted (ps : List (Int × Int)) :
    ∀ c : Client,
      (ps.foldl (fun c' q => updClientLastContactedRow q.1 q.2 c') c).lastContacted
        = ps.foldl (fun o q => omax o q.1) c.lastContacted := by
  induction ps with
  | nil => intro c; rfl
  | cons q ps ih =>
      intro c
      simp only [List.foldl_cons]
      rw [ih, lastContacted_updRow]

theorem foldl_omax_le (ps : List (Int × Int)) :
    ∀ t : Int, ∃ u, ps.foldl (fun o q => omax o q.1) (some t) = some u ∧ t ≤ u := by
  induction ps with
  | nil => intro t; exact ⟨t, rfl, le_refl t⟩
  | cons q ps ih =>
      intro t
      simp only [List.foldl_cons, omax]
      obtain ⟨u, hu, hle⟩ := ih (max t q.1)
      exact ⟨u, hu, le_trans (le_max_left t q.1) hle⟩

/-- C1: the last-contacted propagation helper (called from
`createProject` and `updateProject`) overwrites a client's value and
bumps its update timestamp iff the client has no current value or the
candidate is strictly more recent; consequently any sequence of
propagations with dates `d1, d2, …` leaves the client's `lastContacted`
at the running maximum of its previous value and the propagated dates,
and it never decreases. -/
theorem updateClientLastContacted_monotonic (c : Client) :
    (∀ d now_ : Int,
      ((c.lastContacted = none ∨ ∃ t, c.lastContacted = some t ∧ t < d) →
        updClientLastContactedRow d now_ c
          = { c with lastContacted := some d, updatedAt := now_ })
      ∧ (∀ t, c.lastContacted = some t → d ≤ t →
          updClientLastContactedRow d now_ c = c))
    ∧ (∀ ps : List (Int × Int),
        (ps.foldl (fun c' q => updClientLastContactedRow q.1 q.2 c') c).lastContacted
          = ps.foldl (fun o q => omax o q.1) c.lastContacted)
    ∧ (∀ ps : List (Int × Int), ∀ t, c.lastContacted = some t →
        ∃ u, (ps.foldl (fun c' q => updClientLastContactedRow q.1 q.2 c') c).lastContacted
              = some u ∧ t ≤ u) := by
  refine ⟨?_, fun ps => foldl_updRow_lastContacted ps c, ?_⟩
  · intro d now_
    constructor
    · rintro (h | ⟨t, ht, hlt⟩)
      · simp [updClientLastContactedRow, h]
      · simp [updClientLastContactedRow, ht, hlt]
    · intro t ht hle
      simp [updClientLastContactedRow, ht, not_lt.2 hle]
  · intro ps t ht
    rw [foldl_updRow_lastContacted ps c, ht]
    exact foldl_omax_le ps t

/-- Witness for C1: a concrete overwrite (candidate 60 beats stored 50)
and a concrete propagation sequence whose result stays at least the
previous value 50. -/
theorem updateClientLastContacted_monotonic_witness :
    updClientLastContactedRow 60 9 ⟨5, "C", "pending", some 50, 0, 0⟩
      = ⟨5, "C", "pending", some 60, 0, 9⟩
    ∧ ∃ u, (([((40 : Int), (1 : Int)), (70, 2), (55, 3)].foldl
          (fun c' q => updClientLastContactedRow q.1 q.2 c')
          ⟨5, "C", "pending", some 50, 0, 0⟩).lastContacted) = some u
        ∧ (50 : Int) ≤ u := by
  constructor
  · exact ((updateClientLastContacted_monotonic _).1 60 9).1
      (Or.inr ⟨50, rfl, by omega⟩)
  · exact (updateClientLastContacted_monotonic _).2.2 _ 50 rfl

/-! ## Inversion lemmas for the `createProject` pipeline -/

theorem parseProjectInsert_some (i : InsertData) (v : ValidatedInsert)
    (h : parseProjectInsert i = some v) :
    i.assignedToId = some v.assignedToId
    ∧ ((i.lastContacted = none ∧ v.lastContacted = none)
        ∨ ∃ t, i.lastContacted = some (some t) ∧ v.lastContacted = some t)
    ∧ v.name = i.name ∧ v.phoneNumber = i.phoneNumber ∧ v.poc = i.poc
    ∧ v.type = i.type ∧ v.status = i.status ∧ v.hasInvoice = i.hasInvoice
    ∧ (v.hasInvoice = "yes" ∨ v.hasInvoice = "no")
    ∧ v.affiliatePartner = i.affiliatePartner ∧ v.category = i.category
    ∧ v.activeStage = i.activeStage ∧ v.createdAt = i.createdAt
    ∧ v.updatedAt = i.updatedAt ∧ v.clientId = none := by
  unfold parseProjectInsert at h
  cases ha : i.assignedToId with
  | none => simp [ha] at h
  | some aid =>
    simp only [ha] at h
    cases hl : i.lastContacted with
    | none =>
        simp only [hl] at h
        split_ifs at h with h1 h2 h3 h4
        · cases h
          refine ⟨rfl, Or.inl ⟨rfl, rfl⟩, ?_⟩
          push_neg at h4
          simp_all
          tauto
    | some jd =>
        cases jd with
        | none => simp [hl] at h
        | some t =>
            simp only [hl] at h
            split_ifs at h with h1 h2 h3 h4
            · cases h
              refine ⟨rfl, Or.inr ⟨t, rfl, rfl⟩, ?_⟩
              push_neg at h4
              simp_all
              tauto

theorem createProject_ok_project (pd : String → Option Int) (now : Int)
    (db : DB) (d : CreateIn) (db' : DB) (p : Project)
    (h : createProject pd now db d = .ok (db', p)) :
    ∃ v, parseProjectInsert (buildInsertData pd now d) = some v
      ∧ p = { id := db.nextProjectId, name := v.name
              phoneNumber := v.phoneNumber, poc := v.poc, type := v.type
              affiliatePartner := v.affiliatePartner, category := v.category
              lastContacted := v.lastContacted, status := v.status
              activeStage := v.activeStage, hasInvoice := v.hasInvoice
              assignedToId := v.assignedToId
              clientId :=
                if d.type == some "direct" && !truthyNum d.clientId
                    && truthyStr d.name
                then some db.nextClientId else v.clientId
              createdAt := v.createdAt, updatedAt := v.updatedAt } := by
  cases hv : parseProjectInsert (buildInsertData pd now d) with
  | none => simp [createProject, hv] at h
  | some v =>
      refine ⟨v, rfl, ?_⟩
      simp only [createProject, hv] at h
      by_cases hb : (d.type == some "direct" && !truthyNum d.clientId
          && truthyStr d.name) = true
      · simp only [hb, if_true] at h ⊢
        exact (congrArg Prod.snd (Except.ok.inj h)).symm
      · simp only [Bool.not_eq_true] at hb
        simp only [hb, Bool.false_eq_true, if_false] at h ⊢
        exact (congrArg Prod.snd (Except.ok.inj h)).symm

theorem updateProject_ok_inv (pd : String → Option Int) (now : Int) (db : DB)
    (id : Int) (d : UpdateIn) (db' : DB) (p : Project)
    (h : updateProject pd now db id d = .ok (db', p)) :
    ∃ cur na lcUpd, findProject db id = some cur
      ∧ buildUpdateAssigned cur d.assignedToId = some na
      ∧ buildUpdateLastContacted pd d.lastContacted = lcUpd
      ∧ lcUpd ≠ .set none
      ∧ p = applyProjectPatch cur d na (applyLastContactedUpd cur lcUpd) now := by
  cases hf : findProject db id with
  | none => simp [updateProject, hf] at h
  | some cur =>
    cases hna : buildUpdateAssigned cur d.assignedToId with
    | none => simp [updateProject, hf, hna] at h
    | some na =>
      cases hlc : buildUpdateLastContacted pd d.lastContacted with
      | keep =>
          refine ⟨cur, na, .keep, rfl, hna, rfl, by simp, ?_⟩
          simp only [updateProject, hf, hna, hlc] at h
          exact (congrArg Prod.snd (Except.ok.inj h)).symm
      | setNull =>
          refine ⟨cur, na, .setNull, rfl, hna, rfl, by simp, ?_⟩
          simp only [updateProject, hf, hna, hlc] at h
          exact (congrArg Prod.snd (Except.ok.inj h)).symm
      | set jd =>
          cases jd with
          | none => simp [updateProject, hf, hna, hlc] at h
          | some t =>
              refine ⟨cur, na, .set (some t), rfl, hna, rfl, by simp, ?_⟩
              simp only [updateProject, hf, hna, hlc] at h
              exact (congrArg Prod.snd (Except.ok.inj h)).symm

/-! ## C9 — the default assignee -/

/-- A database whose name-sorted first team member is Ann with id 2,
while Zed with id 1 was created first. -/
def dbTwoMembers : DB :=
  { emptyDB with
    teamMembers := [⟨1, "Zed", "z@x.com", "adviser"⟩,
                    ⟨2, "Ann", "a@x.com", "adviser"⟩] }

/-- C9 is refuted: with team members Zed (id 1) and Ann (id 2), the first
team member in name-sorted order is Ann (id 2), yet `createProject`
without an `assignedToId` persists the constant fallback 1
(`data.assignedToId || 1`), which is not the name-sorted first. -/
theorem assignedToId_default_cex :
    (match createProject pdJan 0 dbTwoMembers
        { name := some "Proj", type := some "affiliate" } with
      | .ok x => some x.2.assignedToId
      | .error _ => none) = some 1
    ∧ (getTeamMembers dbTwoMembers).head? = some ⟨2, "Ann", "a@x.com", "adviser"⟩
    ∧ ¬ ((1 : Int) = 2) :=
  ⟨rfl, by decide, by decide⟩

/-- C9 (amended): when `assignedToId` is omitted (or is 0 or null), the
persisted project's assignee is the constant identifier 1 — not the
first team member in name-sorted order; a string value is parsed with
`parseInt`, and a non-zero number is used as-is. -/
theorem assignedToId_create_spec (pd : String → Option Int) (now : Int)
    (db : DB) (d : CreateIn) (db' : DB) (p : Project)
    (h : createProject pd now db d = .ok (db', p)) :
    (d.assignedToId = .undef → p.assignedToId = 1)
    ∧ (d.assignedToId = .nul → p.assignedToId = 1)
    ∧ (∀ s, d.assignedToId = .str s → jsParseInt s = some p.assignedToId)
    ∧ (∀ n, d.assignedToId = .num n → n ≠ 0 → p.assignedToId = n)
    ∧ (d.assignedToId = .num 0 → p.assignedToId = 1) := by
  obtain ⟨v, hv, hp⟩ := createProject_ok_project pd now db d db' p h
  obtain ⟨ha, -⟩ := parseProjectInsert_some _ _ hv
  have hpa : p.assignedToId = v.assignedToId := by rw [hp]
  refine ⟨?_, ?_, ?_, ?_, ?_⟩
  · intro hd
    have hb : (buildInsertData pd now d).assignedToId = some 1 := by
      simp [buildInsertData, hd]
    rw [hb] at ha
    rw [hpa, ← Option.some.inj ha]
  · intro hd
    have hb : (buildInsertData pd now d).assignedToId = some 1 := by
      simp [buildInsertData, hd]
    rw [hb] at ha
    rw [hpa, ← Option.some.inj ha]
  · intro s hd
    have hb : (buildInsertData pd now d).assignedToId = jsParseInt s := by
      simp [buildInsertData, hd]
    rw [hb] at ha
    rw [hpa, ← ha]
  · intro n hd hn
    have hb : (buildInsertData pd now d).assignedToId = some n := by
      simp [buildInsertData, hd, hn]
    rw [hb] at ha
    rw [hpa, ← Option.some.inj ha]
  · intro hd
    have hb : (buildInsertData pd now d).assignedToId = some 1 := by
      simp [buildInsertData, hd]
    rw [hb] at ha
    rw [hpa, ← Option.some.inj ha]

/-- The database and project produced by the witness call of C9. -/
def projAfterC9 : Project :=
  { id := 1, name := "Proj", phoneNumber := "", poc := "", type := "affiliate"
    affiliatePartner := none, category := none, lastContacted := none
    status := "active", activeStage := none, hasInvoice := "no"
    assignedToId := 1, clientId := none, createdAt := 0, updatedAt := 0 }

/-- The post-state for the witness call of C9. -/
def dbAfterC9 : DB :=
  { dbTwoMembers with projects := [projAfterC9], nextProjectId := 2 }

/-- Witness for the amended C9 at a concrete omitted-assignee create. -/
theorem assignedToId_create_spec_witness : projAfterC9.assignedToId = 1 :=
  (assignedToId_create_spec pdJan 0 dbTwoMembers
    { name := some "Proj", type := some "affiliate" } dbAfterC9 projAfterC9
    rfl).1 rfl

/-! ## C10 — absent `type` defaults to "direct" without auto-client -/

/-- C10: when the payload's `type` is absent, the inserted project gets
the default type `"direct"`, yet no client is auto-created and the
project's `clientId` stays null, because the auto-creation branch tests
the raw `data.type === 'direct'` rather than the defaulted value. -/
theorem createProject_absent_type (pd : String → Option Int) (now : Int)
    (db : DB) (d : CreateIn) (db' : DB) (p : Project)
    (htype : d.type = none)
    (h : createProject pd now db d = .ok (db', p)) :
    p.type = "direct" ∧ p.clientId = none ∧ db'.clients = db.clients := by
  obtain ⟨v, hv, hp⟩ := createProject_ok_project pd now db d db' p h
  obtain ⟨-, -, -, -, -, hvt, -, -, -, -, -, -, -, -, hcid⟩ :=
    parseProjectInsert_some _ _ hv
  have hbfalse : (d.type == some "direct" && !truthyNum d.clientId
      && truthyStr d.name) = false := by
    simp [htype]
  refine ⟨?_, ?_, ?_⟩
  · rw [hp]
    show v.type = "direct"
    rw [hvt]
    simp [buildInsertData, htype, jsOrStr]
  · rw [hp]
    show (if _ then _ else v.clientId) = none
    rw [hbfalse]
    simp [hcid]
  · simp only [createProject, hv, hbfalse, Bool.false_eq_true, if_false] at h
    have hdb : _ = db' := congrArg Prod.fst (Except.ok.inj h)
    rw [← hdb]
    rw [hcid]

/-- The project produced by the witness call of C10. -/
def projAfterC10 : Project :=
  { id := 1, name := "NoType", phoneNumber := "", poc := "", type := "direct"
    affiliatePartner := none, category := none, lastContacted := none
    status := "active", activeStage := none, hasInvoice := "no"
    assignedToId := 1, clientId := none, createdAt := 0, updatedAt := 0 }

/-- The post-state for the witness call of C10. -/
def dbAfterC10 : DB :=
  { emptyDB with projects := [projAfterC10], nextProjectId := 2 }

/-- Witness for C10 at a concrete create whose payload has no `type`. -/
theorem createProject_absent_type_witness :
    projAfterC10.type = "direct" ∧ projAfterC10.clientId = none
    ∧ dbAfterC10.clients = emptyDB.clients :=
  createProject_absent_type pdJan 0 emptyDB { name := some "NoType" }
    dbAfterC10 projAfterC10 rfl rfl

/-! ## C5 — `hasInvoice` coercion -/

/-- C5 is refuted on its persistence part: the coercion passes the string
`"maybe"` through unchanged, but `projectInsertSchema`'s
`z.enum(["yes","no"])` rejects it, so `createProject` throws a validation
error instead of persisting the value. -/
theorem hasInvoice_passthrough_cex :
    createProject pdJan 0 emptyDB
      { name := some "Acme", type := some "affiliate"
        hasInvoice := .str "maybe" } = .error "ValidationError" := rfl

/-- C5 (amended): `hasInvoice` is coerced as claimed — boolean `true`↦
`"yes"`, `false`↦`"no"`, numbers by the sign test, strings equal to
`"true"`/`"false"` case-insensitively to `"yes"`/`"no"`, any other string
passed through, absent (or null) to `"no"` — and the coercion is
idempotent; however a coerced value other than `"yes"`/`"no"` is
rejected by schema validation on create (never persisted), while
`updateProject`, which has no schema parse, persists it unchanged. -/
theorem hasInvoice_coercion_spec :
    normalizeInvoice (.boolean true) = "yes"
    ∧ normalizeInvoice (.boolean false) = "no"
    ∧ (∀ n : Int, (0 < n → normalizeInvoice (.num n) = "yes")
        ∧ (n ≤ 0 → normalizeInvoice (.num n) = "no"))
    ∧ (∀ s, jsToLower s = "true" → normalizeInvoice (.str s) = "yes")
    ∧ (∀ s, jsToLower s = "false" → normalizeInvoice (.str s) = "no")
    ∧ (∀ s, jsToLower s ≠ "true" → jsToLower s ≠ "false" →
        normalizeInvoice (.str s) = s)
    ∧ normalizeInvoice .undef = "no"
    ∧ normalizeInvoice .nul = "no"
    ∧ (∀ v, normalizeInvoice (.str (normalizeInvoice v)) = normalizeInvoice v)
    ∧ (∀ pd now db d s r, d.hasInvoice = .str s → s ≠ "yes" → s ≠ "no" →
        jsToLower s ≠ "true" → jsToLower s ≠ "false" →
        createProject pd now db d ≠ .ok r)
    ∧ (∀ pd now db id d s db' p, d.hasInvoice = .str s →
        jsToLower s ≠ "true" → jsToLower s ≠ "false" →
        updateProject pd now db id d = .ok (db', p) → p.hasInvoice = s) := by
  have hyes : jsToLower "yes" = "yes" := by decide
  have hno : jsToLower "no" = "no" := by decide
  refine ⟨rfl, rfl, ?_, ?_, ?_, ?_, rfl, rfl, ?_, ?_, ?_⟩
  · intro n
    constructor
    · intro hn; simp [normalizeInvoice, hn]
    · intro hn; simp [normalizeInvoice, not_lt.2 hn]
  · intro s hs; simp [normalizeInvoice, hs]
  · intro s hs
    by_cases h1 : jsToLower s = "true"
    · rw [h1] at hs; exact absurd hs (by decide)
    · simp [normalizeInvoice, h1, hs]
  · intro s h1 h2; simp [normalizeInvoice, h1, h2]
  · intro v
    cases v with
    | undef => decide
    | nul => decide
    | boolean b => cases b <;> decide
    | num n =>
        by_cases hn : 0 < n
        · simp [normalizeInvoice, hn, hyes]
        · simp [normalizeInvoice, hn, hno]
    | str s =>
        by_cases h1 : jsToLower s = "true"
        · simp [normalizeInvoice, h1]
          decide
        · by_cases h2 : jsToLower s = "false"
          · simp [normalizeInvoice, h1, h2]
            decide
          · simp [normalizeInvoice, h1, h2]
  · intro pd now db d s r hd h1 h2 h3 h4 hok
    obtain ⟨v, hv, -⟩ := createProject_ok_project pd now db d r.1 r.2
      (by rw [hok])
    obtain ⟨-, -, -, -, -, -, -, hinv, hinv2, -⟩ :=
      parseProjectInsert_some _ _ hv
    have : v.hasInvoice = s := by
      rw [hinv]
      simp [buildInsertData, hd, normalizeInvoice, h3, h4]
    rcases hinv2 with hy | hn
    · exact h1 (by rw [← this, hy])
    · exact h2 (by rw [← this, hn])
  · intro pd now db id d s db' p hd h1 h2 hok
    obtain ⟨cur, na, lcUpd, -, -, -, -, hp⟩ :=
      updateProject_ok_inv pd now db id d db' p hok
    rw [hp]
    show (match d.hasInvoice with
          | .undef => cur.hasInvoice
          | v => normalizeInvoice v) = s
    rw [hd]
    simp [normalizeInvoice, h1, h2]

/-- Witness for the amended C5: a concrete non-enum string survives the
coercion on update and is persisted verbatim. -/
theorem hasInvoice_coercion_spec_witness :
    (applyProjectPatch projTemplate { hasInvoice := .str "maybe" } 1
      (some 50) 7).hasInvoice = "maybe" := by
  have h := hasInvoice_coercion_spec.2.2.2.2.2.2.2.2.2.2
  exact h pdJan 7 dbOneLinked 1 { hasInvoice := .str "maybe" } "maybe"
    { dbOneLinked with projects :=
        [applyProjectPatch projTemplate { hasInvoice := .str "maybe" } 1
          (some 50) 7] }
    (applyProjectPatch projTemplate { hasInvoice := .str "maybe" } 1
      (some 50) 7)
    rfl (by decide) (by decide) (by rfl)

/-! ## C2 — direct-project auto-client creation -/

/-- C2: a `createProject` call with raw `type = "direct"`, no truthy
`clientId` and a truthy name creates exactly one new client carrying the
project's name, status and (possibly null) last-contacted value, and the
persisted project's `clientId` is that client's (non-null) identifier. -/
theorem createProject_direct_auto_client (pd : String → Option Int)
    (now : Int) (db : DB) (d : CreateIn) (db' : DB) (p : Project) (s : String)
    (htype : d.type = some "direct")
    (hcid : truthyNum d.clientId = false)
    (hname : d.name = some s) (hs : s ≠ "")
    (h : createProject pd now db d = .ok (db', p)) :
    p.clientId = some db.nextClientId
    ∧ db'.clients.length = db.clients.length + 1
    ∧ ∃ c ∈ db'.clients, c.id = db.nextClientId ∧ c.name = s
        ∧ c.status = p.status ∧ c.lastContacted = p.lastContacted
        ∧ p.clientId = some c.id := by
  have hb : (d.type == some "direct" && !truthyNum d.clientId
      && truthyStr d.name) = true := by
    simp [htype, hcid, truthyStr, hname, hs]
  obtain ⟨v, hv, hp⟩ := createProject_ok_project pd now db d db' p h
  obtain ⟨-, -, -, -, -, -, hstatus, -⟩ := parseProjectInsert_some _ _ hv
  have hpc : p.clientId = some db.nextClientId := by
    rw [hp]
    show (if _ then some db.nextClientId else v.clientId) = _
    rw [hb]
    simp
  have hps : p.status = v.status := by rw [hp]
  have hpl : p.lastContacted = v.lastContacted := by rw [hp]
  -- the freshly inserted client row
  have hnc : ({ id := db.nextClientId, name := jsOrStr d.name ""
                status := jsOrStr d.status "active"
                lastContacted := v.lastContacted, createdAt := now
                updatedAt := now } : Client).name = s := by
    simp [jsOrStr, hname, hs]
  -- characterize db'
  simp only [createProject, hv, hb, if_true] at h
  have hdb : _ = db' := congrArg Prod.fst (Except.ok.inj h)
  set nc : Client :=
    { id := db.nextClientId, name := jsOrStr d.name ""
      status := jsOrStr d.status "active"
      lastContacted := v.lastContacted, createdAt := now
      updatedAt := now } with hncdef
  have hcfields : nc.id = db.nextClientId ∧ nc.name = s
      ∧ nc.status = p.status ∧ nc.lastContacted = p.lastContacted
      ∧ p.clientId = some nc.id := by
    refine ⟨rfl, hnc, ?_, by rw [hpl], by rw [hpc]⟩
    rw [hps, hstatus]
    simp [buildInsertData]
  refine ⟨hpc, ?_, ?_⟩
  · rw [← hdb]
    cases hlc : v.lastContacted with
    | none =>
        simp [hlc]
    | some t =>
        by_cases h0 : db.nextClientId = 0
        · simp [hlc, h0]
        · simp only [hlc, h0, ne_eq, not_false_iff, if_true]
          unfold updateClientLastContacted
          cases hfc : findClient
              { db with
                clients := db.clients ++ [nc]
                nextClientId := db.nextClientId + 1
                projects := _, nextProjectId := _ } db.nextClientId with
          | none => simp
          | some c0 => simp
  · rw [← hdb]
    cases hlc : v.lastContacted with
    | none =>
        refine ⟨nc, ?_, hcfields⟩
        simp [hlc]
    | some t =>
        by_cases h0 : db.nextClientId = 0
        · refine ⟨nc, ?_, hcfields⟩
          simp [hlc, h0]
        · simp only [hlc, h0, ne_eq, not_false_iff, if_true]
          unfold updateClientLastContacted
          have hncfix : updClientLastContactedRow t now nc = nc := by
            unfold updClientLastContactedRow
            rw [hncdef]
            simp [hlc, lt_irrefl]
          cases hfc : findClient
              { db with
                clients := db.clients ++ [nc]
                nextClientId := db.nextClientId + 1
                projects := _, nextProjectId := _ } db.nextClientId with
          | none =>
              refine ⟨nc, ?_, hcfields⟩
              simp
          | some c0 =>
              refine ⟨nc, ?_, hcfields⟩
              simp only [List.mem_map]
              refine ⟨nc, by simp, ?_⟩
              simp [hncfix]

/-- The client auto-created by the witness call of C2. -/
def clientAfterC2 : Client :=
  { id := 1, name := "Acme", status := "active"
    lastContacted := some 1704412800000, createdAt := 0, updatedAt := 0 }

/-- The project persisted by the witness call of C2. -/
def projAfterC2 : Project :=
  { id := 1, name := "Acme", phoneNumber := "", poc := "", type := "direct"
    affiliatePartner := none, category := none
    lastContacted := some 1704412800000, status := "active"
    activeStage := none, hasInvoice := "no", assignedToId := 1
    clientId := some 1, createdAt := 0, updatedAt := 0 }

/-- The post-state for the witness call of C2. -/
def dbAfterC2 : DB :=
  { teamMembers := [], clients := [clientAfterC2], projects := [projAfterC2]
    documents := [], nextClientId := 2, nextProjectId := 2 }

/-- Witness for C2 at a concrete direct create without a client. -/
theorem createProject_direct_auto_client_witness :
    projAfterC2.clientId = some emptyDB.nextClientId
    ∧ dbAfterC2.clients.length = emptyDB.clients.length + 1
    ∧ ∃ c ∈ dbAfterC2.clients, c.id = emptyDB.nextClientId ∧ c.name = "Acme"
        ∧ c.status = projAfterC2.status
        ∧ c.lastContacted = projAfterC2.lastContacted
        ∧ projAfterC2.clientId = some c.id :=
  createProject_direct_auto_client pdJan 0 emptyDB
    { name := some "Acme", type := some "direct"
      lastContacted := .str "2024-01-05" }
    dbAfterC2 projAfterC2 "Acme" rfl (by decide) rfl (by decide) rfl

/-! ## C4 — unconditional status propagation on update -/

/-- The database produced by the tail of `updateProject` (persist, then
the two propagations), expressed in terms of the patched row `p` and the
previous row `cur`. -/
def updateProjectPost (db : DB) (id : Int) (cur p : Project) (now : Int) : DB :=
  let db1 := { db with projects := db.projects.map (fun q =>
      if q.id == id then p else q) }
  let db2 :=
    match p.clientId, p.lastContacted with
    | some cid, some t =>
        if cid != 0 && (match cur.lastContacted with
                        | none => true
                        | some u => u != t) then
          updateClientLastContacted db1 cid t now
        else db1
    | _, _ => db1
  match p.clientId with
  | some cid =>
      if cid != 0 && p.status != cur.status then
        updateClientStatus db2 cid p.status now
      else db2
  | none => db2

theorem updateProject_ok_db (pd : String → Option Int) (now : Int) (db : DB)
    (id : Int) (d : UpdateIn) (db' : DB) (p : Project)
    (h : updateProject pd now db id d = .ok (db', p)) :
    ∃ cur, findProject db id = some cur
      ∧ db' = updateProjectPost db id cur p now := by
  cases hf : findProject db id with
  | none => simp [updateProject, hf] at h
  | some cur =>
    refine ⟨cur, rfl, ?_⟩
    cases hna : buildUpdateAssigned cur d.assignedToId with
    | none => simp [updateProject, hf, hna] at h
    | some na =>
      cases hlc : buildUpdateLastContacted pd d.lastContacted with
      | keep =>
          simp only [updateProject, hf, hna, hlc] at h
          injection h with h1
          injection h1 with hdb hp
          subst hdb
          subst hp
          rfl
      | setNull =>
          simp only [updateProject, hf, hna, hlc] at h
          injection h with h1
          injection h1 with hdb hp
          subst hdb
          subst hp
          rfl
      | set jd =>
          cases jd with
          | none => simp [updateProject, hf, hna, hlc] at h
          | some t =>
              simp only [updateProject, hf, hna, hlc] at h
              injection h with h1
              injection h1 with hdb hp
              subst hdb
              subst hp
              rfl

theorem updRow_id_status (t n : Int) (c : Client) :
    (updClientLastContactedRow t n c).id = c.id
    ∧ (updClientLastContactedRow t n c).status = c.status := by
  unfold updClientLastContactedRow
  cases c.lastContacted with
  | none => exact ⟨rfl, rfl⟩
  | some u =>
      dsimp only
      split <;> exact ⟨rfl, rfl⟩

theorem updateClientLastContacted_clients (db : DB) (cid t now : Int) :
    (updateClientLastContacted db cid t now).clients = db.clients
    ∨ (updateClientLastContacted db cid t now).clients
        = db.clients.map (fun c =>
            if c.id == cid then updClientLastContactedRow t now c else c) := by
  unfold updateClientLastContacted
  cases findClient db cid <;> simp

theorem updateClientStatus_proj3 (db : DB) (cid : Int) (st : String) (now : Int) :
    (updateClientStatus db cid st now).clients.map
        (fun c => (c.id, c.status, c.updatedAt))
      = db.clients.map (fun c =>
          if c.id = cid then (c.id, st, now) else (c.id, c.status, c.updatedAt)) := by
  unfold updateClientStatus
  rw [List.map_map]
  apply List.map_congr_left
  intro c _
  by_cases hc : c.id = cid <;> simp [hc]

theorem updateClientLastContacted_proj3_if (db : DB) (cid t now : Int)
    (st : String) (now2 : Int) :
    (updateClientLastContacted db cid t now).clients.map
        (fun c => if c.id = cid then (c.id, st, now2)
                  else (c.id, c.status, c.updatedAt))
      = db.clients.map (fun c =>
          if c.id = cid then (c.id, st, now2)
          else (c.id, c.status, c.updatedAt)) := by
  rcases updateClientLastContacted_clients db cid t now with hcl | hcl
  · rw [hcl]
  · rw [hcl, List.map_map]
    apply List.map_congr_left
    intro c _
    by_cases hc : c.id = cid
    · simp only [hc, beq_self_eq_true, if_true, Function.comp_apply]
      rw [(updRow_id_status t now c).1, hc]
      simp
    · simp [hc]

theorem updateClientLastContacted_proj2 (db : DB) (cid t now : Int) :
    (updateClientLastContacted db cid t now).clients.map
        (fun c => (c.id, c.status))
      = db.clients.map (fun c => (c.id, c.status)) := by
  rcases updateClientLastContacted_clients db cid t now with hcl | hcl
  · rw [hcl]
  · rw [hcl, List.map_map]
    apply List.map_congr_left
    intro c _
    by_cases hc : c.id = cid
    · simp only [hc, beq_self_eq_true, if_true, Function.comp_apply]
      rw [(updRow_id_status t now c).1, (updRow_id_status t now c).2]
      rw [hc]
    · simp [hc]

/-- C4: after `updateProject` on a project with a client association, the
client's status (and update timestamp) is overwritten — regardless of the
client's current status, with no recency check — exactly when the
persisted status differs from the project's prior status; when the status
is unchanged no client status changes, and without an association the
client table is untouched. -/
theorem updateProject_status_propagation (pd : String → Option Int)
    (now : Int) (db : DB) (id : Int) (d : UpdateIn) (db' : DB) (p : Project)
    (cur : Project) (hcur : findProject db id = some cur)
    (h : updateProject pd now db id d = .ok (db', p)) :
    p.clientId = cur.clientId
    ∧ (∀ cid, p.clientId = some cid → cid ≠ 0 → p.status ≠ cur.status →
        db'.clients.map (fun c => (c.id, c.status, c.updatedAt))
          = db.clients.map (fun c =>
              if c.id = cid then (c.id, p.status, now)
              else (c.id, c.status, c.updatedAt)))
    ∧ (p.status = cur.status →
        db'.clients.map (fun c => (c.id, c.status))
          = db.clients.map (fun c => (c.id, c.status)))
    ∧ (p.clientId = none → db'.clients = db.clients) := by
  obtain ⟨cur2, hcur2, hdb⟩ := updateProject_ok_db pd now db id d db' p h
  rw [hcur] at hcur2
  obtain rfl : cur = cur2 := Option.some.inj hcur2
  obtain ⟨cur3, na3, lc3, hcur3, -, -, -, hp⟩ :=
    updateProject_ok_inv pd now db id d db' p h
  rw [hcur] at hcur3
  obtain rfl : cur = cur3 := Option.some.inj hcur3
  have hpcid : p.clientId = cur.clientId := by
    rw [hp]; rfl
  refine ⟨hpcid, ?_, ?_, ?_⟩
  · intro cid hcid h0 hne
    rw [hdb]
    unfold updateProjectPost
    simp only [hcid]
    have hcond : (cid != 0 && p.status != cur.status) = true := by
      simp [h0, hne]
    rw [hcond]
    simp only [if_true]
    rw [updateClientStatus_proj3]
    cases hplc : p.lastContacted with
    | none => rfl
    | some t =>
        dsimp only
        split
        · exact updateClientLastContacted_proj3_if _ cid t now p.status now
        · rfl
  · intro heq
    rw [hdb]
    unfold updateProjectPost
    cases hpcid2 : p.clientId with
    | none =>
        cases hplc : p.lastContacted with
        | none => rfl
        | some t => rfl
    | some cid =>
        have hcond : (cid != 0 && p.status != cur.status) = false := by
          simp [heq]
        dsimp only
        rw [hcond]
        simp only [Bool.false_eq_true, if_false]
        cases hplc : p.lastContacted with
        | none => rfl
        | some t =>
            dsimp only
            split
            · exact updateClientLastContacted_proj2 _ cid t now
            · rfl
  · intro hnone
    rw [hdb]
    unfold updateProjectPost
    rw [hnone]

/-- The project persisted by the witness call of C4. -/
def projAfterC4 : Project :=
  { projTemplate with status := "completed", updatedAt := 7 }

/-- The post-state for the witness call of C4. -/
def dbAfterC4 : DB :=
  { dbOneLinked with
    clients := [⟨5, "C", "completed", some 50, 0, 7⟩]
    projects := [projAfterC4] }

/-- Witness for C4 at a concrete status-changing update: the linked
client's status is overwritten and its update timestamp bumped. -/
theorem updateProject_status_propagation_witness :
    dbAfterC4.clients.map (fun c => (c.id, c.status, c.updatedAt))
      = dbOneLinked.clients.map (fun c =>
          if c.id = 5 then (c.id, projAfterC4.status, (7 : Int))
          else (c.id, c.status, c.updatedAt)) := by
  have h := (updateProject_status_propagation pdJan 7 dbOneLinked 1
    { status := some "completed" } dbAfterC4 projAfterC4 projTemplate rfl
    rfl).2.1
  exact h 5 rfl (by decide) (by decide)

/-! ## C7 — project list filtering -/

theorem mem_insertSorted {α : Type} (le : α → α → Bool) (a b : α)
    (l : List α) : b ∈ insertSorted le a l ↔ b = a ∨ b ∈ l := by
  induction l with
  | nil => simp [insertSorted]
  | cons x xs ih =>
      unfold insertSorted
      by_cases h : le a x = true
      · simp [h]
      · simp [h, ih]
        tauto

theorem mem_sortBy {α : Type} (le : α → α → Bool) (b : α) (l : List α) :
    b ∈ sortBy le l ↔ b ∈ l := by
  induction l with
  | nil => simp [sortBy]
  | cons x xs ih => simp [sortBy, mem_insertSorted, ih]

theorem bucketStart_some_ne {s : String} {bs : BucketStarts} {st : Int}
    (h : bucketStart s bs = some st) : s ≠ "" ∧ s ≠ "all" := by
  unfold bucketStart at h
  split at h <;> simp_all

theorem filterApplies_some {s : String} (h1 : s ≠ "") (h2 : s ≠ "all") :
    filterApplies (some s) = true := by
  simp [filterApplies, truthyStr, h1, h2]

theorem mem_statusStage (f : Option String) (l : List Project) (p : Project) :
    p ∈ statusStage f l
      ↔ p ∈ l ∧ (∀ s, f = some s → s ≠ "" → s ≠ "all" → p.status = s) := by
  unfold statusStage
  by_cases hf : filterApplies f = true
  · cases f with
    | none => simp [filterApplies, truthyStr] at hf
    | some s0 =>
        have hs : s0 ≠ "" ∧ s0 ≠ "all" := by
          simpa [filterApplies, truthyStr] using hf
        rw [if_pos hf]
        simp only [List.mem_filter, Option.getD_some, beq_iff_eq]
        constructor
        · rintro ⟨hm, he⟩
          exact ⟨hm, fun s heq _ _ => by cases heq; exact he⟩
        · rintro ⟨hm, hall⟩
          exact ⟨hm, hall s0 rfl hs.1 hs.2⟩
  · rw [if_neg hf]
    constructor
    · intro hm
      refine ⟨hm, ?_⟩
      intro s heq hne hna
      exact absurd (heq ▸ filterApplies_some hne hna) hf
    · exact fun h => h.1

theorem mem_typeStage (f : Option String) (l : List Project) (p : Project) :
    p ∈ typeStage f l
      ↔ p ∈ l ∧ (∀ s, f = some s → s ≠ "" → s ≠ "all" → p.type = s) := by
  unfold typeStage
  by_cases hf : filterApplies f = true
  · cases f with
    | none => simp [filterApplies, truthyStr] at hf
    | some s0 =>
        have hs : s0 ≠ "" ∧ s0 ≠ "all" := by
          simpa [filterApplies, truthyStr] using hf
        rw [if_pos hf]
        simp only [List.mem_filter, Option.getD_some, beq_iff_eq]
        constructor
        · rintro ⟨hm, he⟩
          exact ⟨hm, fun s heq _ _ => by cases heq; exact he⟩
        · rintro ⟨hm, hall⟩
          exact ⟨hm, hall s0 rfl hs.1 hs.2⟩
  · rw [if_neg hf]
    constructor
    · intro hm
      refine ⟨hm, ?_⟩
      intro s heq hne hna
      exact absurd (heq ▸ filterApplies_some hne hna) hf
    · exact fun h => h.1

theorem mem_assignedStage (f : Option String) (l : List Project)
    (p : Project) :
    p ∈ assignedStage f l
      ↔ p ∈ l ∧ (∀ s, f = some s → s ≠ "" → s ≠ "all" →
          ∃ k, jsParseInt s = some k ∧ p.assignedToId = k) := by
  unfold assignedStage
  by_cases hf : filterApplies f = true
  · cases f with
    | none => simp [filterApplies, truthyStr] at hf
    | some s0 =>
        have hs : s0 ≠ "" ∧ s0 ≠ "all" := by
          simpa [filterApplies, truthyStr] using hf
        rw [if_pos hf]
        simp only [List.mem_filter, Option.getD_some]
        cases hpi : jsParseInt s0 with
        | none =>
            simp only
            constructor
            · rintro ⟨-, he⟩
              cases he
            · rintro ⟨hm, hall⟩
              obtain ⟨k, hk, -⟩ := hall s0 rfl hs.1 hs.2
              rw [hpi] at hk
              cases hk
        | some k =>
            simp only [beq_iff_eq]
            constructor
            · rintro ⟨hm, he⟩
              refine ⟨hm, ?_⟩
              intro s heq _ _
              cases heq
              exact ⟨k, hpi, he⟩
            · rintro ⟨hm, hall⟩
              obtain ⟨k', hk', he'⟩ := hall s0 rfl hs.1 hs.2
              rw [hpi] at hk'
              cases hk'
              exact ⟨hm, he'⟩
  · rw [if_neg hf]
    constructor
    · intro hm
      refine ⟨hm, ?_⟩
      intro s heq hne hna
      exact absurd (heq ▸ filterApplies_some hne hna) hf
    · exact fun h => h.1

theorem mem_lastContactedStage (f : Option String) (bs : BucketStarts)
    (l : List Project) (p : Project) :
    p ∈ lastContactedStage f bs l
      ↔ p ∈ l ∧ (∀ s st, f = some s → s ≠ "" → s ≠ "all" →
          bucketStart s bs = some st →
          ∃ t, p.lastContacted = some t ∧ st ≤ t) := by
  unfold lastContactedStage
  by_cases hf : filterApplies f = true
  · cases f with
    | none => simp [filterApplies, truthyStr] at hf
    | some s0 =>
        have hs : s0 ≠ "" ∧ s0 ≠ "all" := by
          simpa [filterApplies, truthyStr] using hf
        rw [if_pos hf]
        simp only [Option.getD_some]
        cases hb : bucketStart s0 bs with
        | none =>
            constructor
            · intro hm
              refine ⟨hm, ?_⟩
              intro s st heq _ _ hbs
              cases heq
              rw [hb] at hbs
              cases hbs
            · exact fun h => h.1
        | some st0 =>
            simp only [List.mem_filter]
            constructor
            · rintro ⟨hm, he⟩
              refine ⟨hm, ?_⟩
              intro s st heq _ _ hbs
              cases heq
              rw [hb] at hbs
              cases hbs
              cases hplc : p.lastContacted with
              | none => rw [hplc] at he; cases he
              | some t =>
                  rw [hplc] at he
                  exact ⟨t, rfl, by simpa using he⟩
            · rintro ⟨hm, hall⟩
              obtain ⟨t, ht, hle⟩ := hall s0 st0 rfl hs.1 hs.2 hb
              refine ⟨hm, ?_⟩
              rw [ht]
              simpa using hle
  · rw [if_neg hf]
    constructor
    · intro hm
      refine ⟨hm, ?_⟩
      intro s st heq hne hna hbs
      exact absurd (heq ▸ filterApplies_some hne hna) hf
    · exact fun h => h.1

/-- Specification-side filter predicate, following the spec's wording
with the corrections the code forces: an empty filter value also imposes
no constraint, and the date bucket constrains only from below (bucket
start ≤ last-contacted), with no upper bound at the current time. -/
def specMatchesFilters (f : ProjectFilterOptions) (bs : BucketStarts)
    (p : Project) : Prop :=
  (∀ s, f.status = some s → s ≠ "" → s ≠ "all" → p.status = s)
  ∧ (∀ s, f.assignedToId = some s → s ≠ "" → s ≠ "all" →
      ∃ k, jsParseInt s = some k ∧ p.assignedToId = k)
  ∧ (∀ s, f.type = some s → s ≠ "" → s ≠ "all" → p.type = s)
  ∧ (∀ s st, f.lastContacted = some s → s ≠ "" → s ≠ "all" →
      bucketStart s bs = some st → ∃ t, p.lastContacted = some t ∧ st ≤ t)

/-- C7 (amended): `getProjects` applies its four filters independently
and combinably — a project is returned iff it is stored and passes each
present filter: `status`, `assignedToId` (parsed numerically) and `type`
as exact matches, and the recognized date bucket as the lower-bound test
`bucket start ≤ lastContacted`; absent, empty or `"all"` values impose no
constraint, a missing `lastContacted` never matches a date bucket, and —
contrary to the original claim — there is no upper bound at the query
time, so future-dated projects match every bucket. -/
theorem getProjects_filter_spec (db : DB) (f : ProjectFilterOptions)
    (bs : BucketStarts) :
    (∀ p, p ∈ getProjects db f bs
        ↔ p ∈ db.projects ∧ specMatchesFilters f bs p)
    ∧ (∀ p s st, f.lastContacted = some s → bucketStart s bs = some st →
        p.lastContacted = none → p ∉ getProjects db f bs) := by
  have hmemiff : ∀ p, p ∈ getProjects db f bs
      ↔ p ∈ db.projects ∧ specMatchesFilters f bs p := by
    intro p
    unfold getProjects specMatchesFilters
    rw [mem_lastContactedStage, mem_typeStage, mem_assignedStage,
      mem_statusStage, mem_sortBy]
    tauto
  refine ⟨hmemiff, ?_⟩
  intro p s st hf hb hnone hmem
  obtain ⟨hs1, hs2⟩ := bucketStart_some_ne hb
  obtain ⟨-, -, -, -, h4⟩ := (hmemiff p).1 hmem
  obtain ⟨t, ht, -⟩ := h4 s st hf hs1 hs2 hb
  rw [hnone] at ht
  cases ht

/-- A project whose last-contacted timestamp (2000000) lies in the
future of the fixture's query time (1000). -/
def projFuture : Project :=
  { projTemplate with lastContacted := some 2000000 }

/-- A one-project database for the C7 counterexample. -/
def dbFuture : DB := { emptyDB with projects := [projFuture] }

/-- Bucket starts as computed by the runtime at a query time of 1000
(the current week starts at 500). -/
def bsC7 : BucketStarts := ⟨900, 500, 100, 0⟩

/-- C7 is refuted: at query time 1000 with the current week starting at
500, the project last contacted at 2000000 — strictly after "now" and so
outside "the current week up to now" — is still returned by the `week`
bucket filter, because the code only checks `lastContacted >= start` with
no upper bound. -/
theorem bucket_filter_no_upper_bound_cex :
    getProjects dbFuture { lastContacted := some "week" } bsC7 = [projFuture]
    ∧ projFuture.lastContacted = some 2000000
    ∧ bsC7.weekStart ≤ 1000
    ∧ (1000 : Int) < 2000000 :=
  ⟨rfl, rfl, by decide, by decide⟩

/-- A stored project with no last-contacted value. -/
def projNoLc : Project := { projTemplate with lastContacted := none }

/-- A one-project database for the C7 witness. -/
def dbNoLc : DB := { emptyDB with projects := [projNoLc] }

/-- Witness for the amended C7: a project with a missing `lastContacted`
never matches the `week` bucket filter. -/
theorem getProjects_filter_spec_witness :
    projNoLc ∉ getProjects dbNoLc { lastContacted := some "week" } bsC7 :=
  (getProjects_filter_spec dbNoLc { lastContacted := some "week" } bsC7).2
    projNoLc "week" 500 rfl rfl rfl

end MapleCRM
